import Mathlib

/-!
Verification of the qrbill payment-reference and Swico billing-information
library against its specification.

Modelling conventions.

Rust strings are modelled at the byte level: a value of type `Str` is the
UTF-8 byte sequence of the string, each byte a `Nat` below 256.  All the
string operations the source uses (`find`, `contains`, `split_once`,
`replace`, slicing) are byte-based in Rust, so this embedding is exact; the
character count `chars().count()` is recovered as the number of non-continuation
bytes.  The ISO 11649 component works character by character, so it is
modelled over the list of Unicode code points instead (`CpStr`); there every
entry is the code point of one character.

Fallible Rust functions returning `Result` are modelled with `Except`.
-/

deriving instance DecidableEq for Except

/-- A Rust `String`/`&str`, as its UTF-8 byte sequence. -/
abbrev Str := List Nat

/-- A Rust `String`, as its sequence of Unicode code points (used by the
ISO 11649 component, which is purely character based). -/
abbrev CpStr := List Nat

/-- UTF-8 encoding of one code point. -/
def cpUtf8 (n : Nat) : List Nat :=
  if n < 128 then [n]
  else if n < 2048 then [192 + n / 64, 128 + n % 64]
  else if n < 65536 then [224 + n / 4096, 128 + n / 64 % 64, 128 + n % 64]
  else [240 + n / 262144, 128 + n / 4096 % 64, 128 + n / 64 % 64, 128 + n % 64]

/-- Byte sequence of a Lean string literal, for writing concrete inputs. -/
def utf8 (s : String) : Str :=
  (s.data.map (fun c => cpUtf8 c.toNat)).flatten

/-- Code-point sequence of a Lean string literal. -/
def cps (s : String) : CpStr :=
  s.data.map (fun c => c.toNat)

/-- Rust `str::chars().count()`: the number of UTF-8 leading bytes. -/
def charCount (s : Str) : Nat :=
  (s.filter (fun b => b < 128 ∨ 192 ≤ b)).length

/-- Source `n` is a leading segment of `h` (byte-wise). -/
def isPrefixB : Str → Str → Bool
  | [], _ => true
  | _ :: _, [] => false
  | a :: as1, b :: bs => a == b && isPrefixB as1 bs

/-- Rust `str::find(pattern)`: byte offset of the first occurrence of the
substring `n` in `s`. -/
def findSub : Str → Str → Option Nat
  | [], n => if isPrefixB n [] then some 0 else none
  | b :: t, n => if isPrefixB n (b :: t) then some 0 else (findSub t n).map (fun x => x + 1)

/-- Rust `str::contains(pattern)`. -/
def containsSub (s n : Str) : Bool :=
  (findSub s n).isSome

/-- Rust `str::split_once(pattern)`: the parts before and after the first
occurrence of `n`. -/
def splitOnceSub (s n : Str) : Option (Str × Str) :=
  (findSub s n).map (fun i => (s.take i, s.drop (i + n.length)))

/-- Worker for `replaceSub`; the fuel only bounds the recursion depth and
never runs out when it starts at the length of the scanned string. -/
def replaceSubGo (f r : Str) : Nat → Str → Str
  | 0, s => s
  | _ + 1, [] => []
  | fuel + 1, b :: t =>
      if isPrefixB f (b :: t) then r ++ replaceSubGo f r fuel (t.drop (f.length - 1))
      else b :: replaceSubGo f r fuel t

/-- Rust `str::replace(f, r)`: every non-overlapping occurrence of `f`
replaced by `r`, scanning left to right. -/
def replaceSub (s f r : Str) : Str :=
  match f with
  | [] => s
  | _ :: _ => replaceSubGo f r s.length s

/-- The code points with the Unicode White_Space property
(what Rust `char::is_whitespace` tests). -/
def wsCps : List Nat :=
  [9, 10, 11, 12, 13, 32, 133, 160, 5760,
   8192, 8193, 8194, 8195, 8196, 8197, 8198, 8199, 8200, 8201, 8202,
   8232, 8233, 8239, 8287, 12288]

/-- UTF-8 encodings of the whitespace code points. -/
def wsEncs : List Str := wsCps.map cpUtf8

/-- Reversed UTF-8 encodings of the whitespace code points (for trimming
from the rear via `List.reverse`). -/
def wsEncsRev : List Str := wsEncs.map List.reverse

/-- Strip from the front of `s`, repeatedly, any entry of `encs` that is a
leading segment; fuelled by the length of `s`. -/
def stripLeads (encs : List Str) : Nat → Str → Str
  | 0, s => s
  | fuel + 1, s =>
      match encs.find? (fun w => isPrefixB w s) with
      | some w => stripLeads encs fuel (s.drop w.length)
      | none => s

/-- Rust `str::trim`: whitespace characters removed from both ends.  On
well-formed UTF-8 this byte-level version agrees with the character-level
original because no whitespace encoding is a proper leading segment of the
encoding of a different character. -/
def trimB (s : Str) : Str :=
  (stripLeads wsEncsRev s.length ((stripLeads wsEncs s.length s).reverse)).reverse

/-- Rust `char::to_digit(10)` on a byte. -/
def byteToDigit (b : Nat) : Option Nat :=
  if 48 ≤ b ∧ b ≤ 57 then some (b - 48) else none

/-- Source `b` is the byte of an ASCII decimal digit. -/
def isDigitByte (b : Nat) : Bool :=
  48 ≤ b && b ≤ 57

/-! ## ESR reference numbers (`src/esr.rs`) -/

/-- The error type `esr::Error`.  The `ParseIntError` variant of the source
is carried over but no modelled code path produces it. -/
inductive EsrError
  | invalidLength
  | invalidFormat
  | invalidChecksum
  | parseIntError
deriving DecidableEq, Repr

/-- The substitution table `digits` of `esr::checksum`. -/
def esrDigitsTable : List Nat := [0, 9, 4, 6, 8, 2, 7, 1, 3, 5]

/-- The loop of `esr::checksum`: running state `c`, updated per digit. -/
def esrChecksumGo (c : Nat) : Str → Except EsrError Nat
  | [] => Except.ok c
  | b :: t =>
      match byteToDigit b with
      | none => Except.error EsrError.invalidFormat
      | some d => esrChecksumGo (esrDigitsTable.getD ((d + c) % 10) 0) t

/-- Source `esr::checksum`: the check digit of `number`, as a one-digit string. -/
def esrChecksum (number : Str) : Except EsrError Str :=
  (esrChecksumGo 0 number).map (fun c => [48 + (10 - c) % 10])

/-- The normalisation both `Esr` constructors perform first:
`replace(' ', "")` then `trim_start_matches('0')`. -/
def esrStrip (s : Str) : Str :=
  (replaceSub s [32] []).dropWhile (fun b => b == 48)

/-- The struct `esr::Esr`. -/
structure Esr where
  number : Str
deriving DecidableEq, Repr

/-- Source `esr::is_checksum_valid`: recompute the checksum of all but the last
digit and compare with the last digit.  (In the source an empty input would
be a slice panic; both public constructors guarantee at least 5 bytes.) -/
def isChecksumValid (number : Str) : Except EsrError Unit :=
  let checkDigit := number.drop (number.length - 1)
  let sample := number.take (number.length - 1)
  match esrChecksum sample with
  | Except.error e => Except.error e
  | Except.ok res => if checkDigit ≠ res then Except.error EsrError.invalidChecksum else Except.ok ()

/-- Source `Esr::try_with_checksum`. -/
def tryWithChecksum (number : Str) : Except EsrError Esr :=
  let number := esrStrip number
  if 27 < number.length ∨ number.length < 5 then Except.error EsrError.invalidLength
  else
    match isChecksumValid number with
    | Except.error e => Except.error e
    | Except.ok _ => Except.ok { number := number }

/-- Source `Esr::try_without_checksum`. -/
def tryWithoutChecksum (value : Str) : Except EsrError Esr :=
  let value := esrStrip value
  if 25 < value.length ∨ value.length < 5 then Except.error EsrError.invalidLength
  else
    match esrChecksum value with
    | Except.error e => Except.error e
    | Except.ok newChecksum =>
        let number := value ++ newChecksum
        match isChecksumValid number with
        | Except.error e => Except.error e
        | Except.ok _ => Except.ok { number := number }

/-- The check-digit table exactly as the specification states it
(spec 4.1), kept separate from the translated code. -/
def specEsrTable : List Nat := [0, 9, 4, 6, 8, 2, 7, 1, 3, 5]

/-- The running state of the reference algorithm of spec 4.1 over the
decimal digits of the body. -/
def specEsrState (digits : List Nat) : Nat :=
  digits.foldl (fun c d => specEsrTable.getD ((d + c) % 10) 0) 0

/-- The check digit of the reference algorithm of spec 4.1. -/
def specEsrCheckDigit (digits : List Nat) : Nat :=
  (10 - specEsrState digits) % 10

/-! ## ISO 11649 creditor references (`src/iso11649.rs`)

This component works character by character, so strings are `CpStr` (lists
of code points).  The external crate function `deunicode` (diacritic
folding to ASCII) is not modelled; instead every theorem quantifies over
its output, which covers every possible UTF-8 input.  Where the source
applies `deunicode` a second time, to the stored string that is already
ASCII alphanumeric, it is the identity and is dropped. -/

/-- Rust `char::to_digit(36)` on a code point. -/
def cpToDigit36 (c : Nat) : Option Nat :=
  if 48 ≤ c ∧ c ≤ 57 then some (c - 48)
  else if 97 ≤ c ∧ c ≤ 122 then some (c - 87)
  else if 65 ≤ c ∧ c ≤ 90 then some (c - 55)
  else none

/-- Rust `char::is_digit(36)` on a code point. -/
def isDigit36 (c : Nat) : Bool :=
  (cpToDigit36 c).isSome

/-- Rust `char::to_ascii_uppercase` on a code point. -/
def cpToAsciiUpper (c : Nat) : Nat :=
  if 97 ≤ c ∧ c ≤ 122 then c - 32 else c

/-- Source `impl From<&str> for DigitsBase36`, applied to the deunicoded text:
uppercase, keep the base-36 characters. -/
def digitsBase36Of (s : CpStr) : CpStr :=
  (s.map cpToAsciiUpper).filter isDigit36

/-- The struct `iso11649::Iso11649`; `original` holds a `DigitsBase36`. -/
structure Iso11649 where
  original : CpStr
deriving DecidableEq, Repr

/-- Source `Iso11649::new`, taking the deunicoded form of the arbitrary UTF-8
input text. -/
def isoNew (deunicodedText : CpStr) : Iso11649 :=
  { original := digitsBase36Of deunicodedText }

/-- Source `Iso11649::without_checksum`: uppercase and remove spaces (the second
`deunicode` of the source is the identity on the stored ASCII text). -/
def isoWithoutChecksum (x : Iso11649) : CpStr :=
  (x.original.map cpToAsciiUpper).filter (fun c => c ≠ 32)

/-- Source `impl From<&DigitsBase36> for DigitsBase10` on one character: the
decimal digit string of its base-36 value (characters without a base-36
value are skipped by the `filter_map` of the source). -/
def cpDecDigits (c : Nat) : List Nat :=
  match cpToDigit36 c with
  | some d => if d < 10 then [d] else [d / 10, d % 10]
  | none => []

/-- Source `impl From<&DigitsBase36> for DigitsBase10`: concatenation of the
per-character decimal digit strings. -/
def decDigitsOf (s : CpStr) : List Nat :=
  (s.map cpDecDigits).flatten

/-- Source `impl Rem<u8> for DigitsBase10`: left-to-right remainder of the big
decimal number. -/
def remBase10 (digits : List Nat) (rhs : Nat) : Nat :=
  digits.foldl (fun res d => (res * 10 + d) % rhs) 0

/-- The big decimal number denoted by a digit sequence (proof-side
companion of `remBase10`). -/
def natVal (digits : List Nat) : Nat :=
  digits.foldl (fun r d => r * 10 + d) 0

/-- Source `Iso11649::with_checksum`.  `format!("RF{check_digits:02}")` becomes
the two decimal digit characters of the check number, which the source
computes as `98 - value % 97`, always between 2 and 98. -/
def isoWithChecksum (x : Iso11649) : CpStr :=
  let textInBase36 := isoWithoutChecksum x
  let base36AtMost21Digits := textInBase36.take 21
  let textWithRf00 := base36AtMost21Digits ++ [82, 70, 48, 48]
  let digitsDecimal := decDigitsOf textWithRf00
  let checkDigits := 98 - remBase10 digitsDecimal 97
  [82, 70, 48 + checkDigits / 10, 48 + checkDigits % 10] ++ base36AtMost21Digits

/-- Error type of the strict validating constructor.  Modelled from the
spec: the constructor `Iso11649::try_new` and its error type are referenced
by `lib.rs` (`Error::Scor(#[from] iso11649::Error)`) and by the integration
tests, but their definitions are not under `src/`; names follow spec 4.2. -/
inductive Iso11649Error
  | invalidLength
  | invalidFormat
  | invalidCharacters
  | invalidChecksum
deriving DecidableEq, Repr

/-- The punctuation stripped by strict mode (spec 4.2): space `-` `.` `,`
`/` `:`. -/
def isoStripPunct (s : CpStr) : CpStr :=
  s.filter (fun c => c ∉ [32, 45, 46, 44, 47, 58])

/-- Source `c` is the code point of an ASCII alphanumeric character. -/
def isAsciiAlnumCp (c : Nat) : Bool :=
  (48 ≤ c && c ≤ 57) || (65 ≤ c && c ≤ 90) || (97 ≤ c && c ≤ 122)

/-- The ISO 7064 MOD 97-10 value of a base-36 string (spec 4.2): map each
character to its base-36 value, concatenate the decimal digit strings and
take the big number modulo 97. -/
def isoMod97 (s : CpStr) : Nat :=
  remBase10 (decDigitsOf s) 97

/-- Modelled from the spec: the strict validating constructor
`Iso11649::try_new` (spec 4.2, strict mode), missing from `src/`.  Strip
punctuation; `InvalidLength` outside [5,25]; fail unless the result starts
with the literal `RF`; `InvalidCharacters` unless ASCII alphanumeric;
`InvalidChecksum` unless the rearranged value is 1 modulo 97. -/
def isoTryNew (input : CpStr) : Except Iso11649Error Iso11649 :=
  let s := isoStripPunct input
  if s.length < 5 ∨ 25 < s.length then Except.error Iso11649Error.invalidLength
  else if ¬ (s.take 2 = [82, 70]) then Except.error Iso11649Error.invalidFormat
  else if ¬ (s.all isAsciiAlnumCp) then Except.error Iso11649Error.invalidCharacters
  else if isoMod97 (s.drop 4 ++ s.take 4) ≠ 1 then Except.error Iso11649Error.invalidChecksum
  else Except.ok { original := s }

/-! ## Swico component model (`src/billing_infos/swico/mod.rs`)

The constructor `Prefix` of the source enum is rendered `preTag` here; the
derived Rust `Ord` on `SwicoComponent` follows declaration order, on which
`get_id` is strictly monotone, so the `BTreeMap<SwicoComponent, _>` of the
source is modelled as an association list kept sorted by `getId`. -/

/-- The enum `SwicoComponent`. -/
inductive SwicoComponent
  | unstructured
  | preTag
  | invoiceRef
  | docDate
  | clientRef
  | vatNum
  | vatDate
  | vatDetails
  | vatImport
  | conditions
deriving DecidableEq, Repr

/-- Source `SwicoComponent::get_id`. -/
def SwicoComponent.getId : SwicoComponent → Nat
  | SwicoComponent.unstructured => 0
  | SwicoComponent.preTag => 1
  | SwicoComponent.invoiceRef => 10
  | SwicoComponent.docDate => 11
  | SwicoComponent.clientRef => 20
  | SwicoComponent.vatNum => 30
  | SwicoComponent.vatDate => 31
  | SwicoComponent.vatDetails => 32
  | SwicoComponent.vatImport => 33
  | SwicoComponent.conditions => 40

/-- Source `format!("{:02}", n)` for `n < 100`: the two decimal digit bytes. -/
def twoDigitsStr (n : Nat) : Str :=
  [48 + n / 10, 48 + n % 10]

/-- Source `impl Display for SwicoComponent`: empty for the unstructured tag,
`//` for the literal prefix tag, `/NN/` for the numbered tags. -/
def SwicoComponent.delim : SwicoComponent → Str
  | SwicoComponent.unstructured => []
  | SwicoComponent.preTag => [47, 47]
  | c => 47 :: twoDigitsStr c.getId ++ [47]

/-- Source `SwicoComponent::for_parsing`. -/
def SwicoComponent.forParsing : List SwicoComponent :=
  [SwicoComponent.invoiceRef, SwicoComponent.docDate, SwicoComponent.clientRef,
   SwicoComponent.vatNum, SwicoComponent.vatDate, SwicoComponent.vatDetails,
   SwicoComponent.vatImport, SwicoComponent.conditions]

/-- Source `SwicoComponent::invalids`: the `/NN/` markers, for every id below 100
that is not the id of a parsed component. -/
def SwicoComponent.invalids : List Str :=
  ((List.range 100).filter
      (fun i => ¬ (SwicoComponent.forParsing.any (fun f => f.getId == i)))).map
    (fun c => 47 :: twoDigitsStr c ++ [47])

/-- Source `StructuredSet = BTreeMap<SwicoComponent, Arc<str>>`, as an association
list sorted by `getId`. -/
abbrev StructuredSet := List (SwicoComponent × Str)

/-- Source `BTreeMap::insert`: insert or overwrite, keeping the list sorted. -/
def insertSS (k : SwicoComponent) (v : Str) : StructuredSet → StructuredSet
  | [] => [(k, v)]
  | (k1, v1) :: t =>
      if k.getId < k1.getId then (k, v) :: (k1, v1) :: t
      else if k.getId = k1.getId then (k, v) :: t
      else (k1, v1) :: insertSS k v t

/-- Source `BTreeMap::get`. -/
def lookupSS (k : SwicoComponent) : StructuredSet → Option Str
  | [] => none
  | (k1, v1) :: t => if k1 = k then some v1 else lookupSS k t

/-- Source `impl TotalLenght for StructuredSet`: the summed character count of
every stored value (the unstructured value included). -/
def totLenSS (set : StructuredSet) : Nat :=
  (set.map (fun p => charCount p.2)).sum

/-- The enum `Version` of `swico/syntax.rs` (only `S1` exists). -/
inductive Version
  | s1 (set : StructuredSet)
deriving DecidableEq, Repr

/-! ## Swico syntax validator (`src/billing_infos/swico/syntax.rs`)

The source name `SyntaxValidatorError` is rendered `ValidatorError` and
`Version::validate_syntax` is rendered `validateS1`.  The external parsers
the validator calls are modelled by their acceptance grammars: `chrono`
`NaiveDate::parse_from_str` with format `%y%m%d` (two greedy 1-2 digit
numeric fields with leading-whitespace skip, full consumption, calendar
validity, years 00-68 mapping to 20xx), Rust `f32::from_str` and
`u8::from_str`.  Only acceptance matters: no parsed value is used. -/

/-- The error enum `SyntaxValidatorError`.  The payloads of the wrapped
external errors (`ParseIntError`, `ParseFloatError`, `chrono::ParseError`)
are dropped. -/
inductive ValidatorError
  | fromParseInt
  | fromParseFloat
  | fromNaiveDateParse
  | invalidEscapeChar (s : Str)
  | invalidVatNum (s : Str)
  | invalidDecimalPoint (s : Str)
  | invalidConditions (s : Str)
  | invalidDateFormat (s : Str)
deriving DecidableEq, Repr

/-- One numeric field of a chrono format string: skip leading whitespace,
then read one or two decimal digit bytes, greedily. -/
def chronoNum2 (s : Str) : Option (Nat × Str) :=
  match stripLeads wsEncs s.length s with
  | [] => none
  | [a] => if isDigitByte a then some (a - 48, []) else none
  | a :: b :: t =>
      if isDigitByte a then
        (if isDigitByte b then some ((a - 48) * 10 + (b - 48), t)
         else some (a - 48, b :: t))
      else none

/-- The year denoted by a two-digit `%y` field (chrono maps 00-68 to
2000-2068 and 69-99 to 1969-1999). -/
def chronoYear (y2 : Nat) : Nat :=
  if y2 < 69 then 2000 + y2 else 1900 + y2

/-- Proleptic-Gregorian leap year. -/
def isLeap (y : Nat) : Bool :=
  (y % 4 == 0 && y % 100 != 0) || y % 400 == 0

/-- Days in a month. -/
def daysInMonth (y m : Nat) : Nat :=
  if m = 2 then (if isLeap y then 29 else 28)
  else if m = 4 ∨ m = 6 ∨ m = 9 ∨ m = 11 then 30
  else 31

/-- Source `NaiveDate::parse_from_str(s, "%y%m%d")` succeeds. -/
def chronoParseYYMMDD (s : Str) : Bool :=
  match chronoNum2 s with
  | none => false
  | some (y2, r1) =>
      match chronoNum2 r1 with
      | none => false
      | some (m, r2) =>
          match chronoNum2 r2 with
          | none => false
          | some (d, r3) =>
              r3.isEmpty && decide (1 ≤ m) && decide (m ≤ 12) && decide (1 ≤ d) &&
                decide (d ≤ daysInMonth (chronoYear y2) m)

/-- Source `syntax::is_date_ok`: 6 characters, one date; 12 characters, two
6-byte halves.  (For a 12-character value containing multibyte characters
the byte slicing of the source could split a character; the model slices
bytes, which agrees on all-ASCII values.) -/
def isDateOk (d : Str) : Except ValidatorError Unit :=
  if charCount d = 6 then
    (if chronoParseYYMMDD d then Except.ok () else Except.error ValidatorError.fromNaiveDateParse)
  else if charCount d = 12 then
    (if chronoParseYYMMDD (d.take 6) && chronoParseYYMMDD (d.drop 6) then Except.ok ()
     else Except.error ValidatorError.fromNaiveDateParse)
  else Except.error (ValidatorError.invalidDateFormat d)

/-- The scanning loop of `syntax::invalid_chars`, with the original string
kept for the error payload. -/
def invalidCharsGo (orig : Str) : Str → Except ValidatorError Unit
  | [] => Except.ok ()
  | 47 :: _ => Except.error (ValidatorError.invalidEscapeChar orig)
  | 92 :: rest =>
      match rest with
      | [] => Except.error (ValidatorError.invalidEscapeChar orig)
      | n :: t =>
          if n ≠ 92 ∧ n ≠ 47 then Except.error (ValidatorError.invalidEscapeChar orig)
          else invalidCharsGo orig t
  | _ :: t => invalidCharsGo orig t

/-- Source `syntax::invalid_chars`: a bare `/` is forbidden and every `\` must be
followed by `\` or `/`. -/
def invalidChars (s : Str) : Except ValidatorError Unit :=
  invalidCharsGo s s

/-- Rust `str::split(c)` on a one-byte separator (accumulator worker). -/
def splitByteGo (c : Nat) : Str → Str → List Str
  | cur, [] => [cur.reverse]
  | cur, b :: t => if b = c then cur.reverse :: splitByteGo c [] t else splitByteGo c (b :: cur) t

/-- Rust `str::split(c)` on a one-byte separator. -/
def splitByte (s : Str) (c : Nat) : List Str :=
  splitByteGo c [] s

/-- Rust `u8::to_ascii_lowercase` on a byte. -/
def asciiLowerByte (b : Nat) : Nat :=
  if 65 ≤ b ∧ b ≤ 90 then b + 32 else b

/-- Strip one leading `+` or `-`. -/
def stripNumSign : Str → Str
  | 43 :: t => t
  | 45 :: t => t
  | s => s

/-- Split a float body at the first `e`/`E` into mantissa and exponent. -/
def splitAtExp : Str → (Str × Option Str)
  | [] => ([], none)
  | b :: t =>
      if b = 101 ∨ b = 69 then ([], some t)
      else
        let p := splitAtExp t
        (b :: p.1, p.2)

/-- The mantissa grammar of `f32::from_str`: digits and at most one dot,
at least one digit. -/
def mantissaOk (m : Str) : Bool :=
  decide (m.count 46 ≤ 1) && m.all (fun b => isDigitByte b || b == 46) && m.any isDigitByte

/-- The exponent grammar of `f32::from_str`: optional sign then at least
one digit. -/
def expOk (e : Str) : Bool :=
  let e1 := stripNumSign e
  !e1.isEmpty && e1.all isDigitByte

/-- Source `f32::from_str(s)` succeeds (out-of-range values saturate to infinity
in Rust and do not fail, so acceptance is purely a grammar). -/
def parsesF32 (s : Str) : Bool :=
  let b := stripNumSign s
  let l := b.map asciiLowerByte
  if l = utf8 "inf" ∨ l = utf8 "infinity" ∨ l = utf8 "nan" then true
  else
    let p := splitAtExp b
    mantissaOk p.1 && (match p.2 with | none => true | some ex => expOk ex)

/-- Source `u8::from_str(s)` succeeds: optional `+`, at least one digit, value at
most 255. -/
def parsesU8 (s : Str) : Bool :=
  let b := match s with | 43 :: t => t | other => other
  !b.isEmpty && b.all isDigitByte && decide (natVal (b.map (fun x => x - 48)) ≤ 255)

/-- The per-group loop of `syntax::group_control`. -/
def groupControlGo (orig : Str) (isCondition : Bool) : List Str → Except ValidatorError Unit
  | [] => Except.ok ()
  | g :: t =>
      let subGroups := splitByte g 58
      if ¬ (subGroups.all parsesF32 = true) then Except.error ValidatorError.fromParseFloat
      else if isCondition then
        (if subGroups.length ≠ 2 then Except.error (ValidatorError.invalidConditions orig)
         else
           match subGroups.getLast? with
           | none => Except.error (ValidatorError.invalidConditions orig)
           | some f =>
               if parsesU8 f then groupControlGo orig isCondition t
               else Except.error ValidatorError.fromParseInt)
      else groupControlGo orig isCondition t

/-- Source `syntax::group_control`: split on `;` into groups, each split on `:`
into subgroups; every subgroup must parse as `f32`; for conditions each
group has exactly two subgroups and the last parses as `u8`. -/
def groupControl (s : Str) (isCondition : Bool) : Except ValidatorError Unit :=
  groupControlGo s isCondition (splitByte s 59)

/-- The comma check plus `group_control`, as applied to the decimal
fields. -/
def checkDecimalField (s : Str) (isCondition : Bool) : Except ValidatorError Unit :=
  if containsSub s [44] then Except.error (ValidatorError.invalidDecimalPoint s)
  else groupControl s isCondition

/-- Source `Version::validate_syntax`, rendered `validateS1`: date fields, VAT
number, escape checks on the reference fields, decimal checks on the VAT
and conditions fields, in source order; the set passes through
unchanged. -/
def validateS1 : Version → Except ValidatorError Version
  | Version.s1 set => do
      match lookupSS SwicoComponent.docDate set with
      | some d => isDateOk d
      | none => pure ()
      match lookupSS SwicoComponent.vatDate set with
      | some d => isDateOk d
      | none => pure ()
      match lookupSS SwicoComponent.vatNum set with
      | some vn =>
          if charCount vn ≠ 9 ∨ vn.any (fun b => ! isDigitByte b) = true then
            throw (ValidatorError.invalidVatNum vn)
          else pure ()
      | none => pure ()
      match lookupSS SwicoComponent.invoiceRef set with
      | some s => invalidChars s
      | none => pure ()
      match lookupSS SwicoComponent.clientRef set with
      | some s => invalidChars s
      | none => pure ()
      match lookupSS SwicoComponent.vatDetails set with
      | some s => checkDecimalField s false
      | none => pure ()
      match lookupSS SwicoComponent.vatImport set with
      | some s => checkDecimalField s false
      | none => pure ()
      match lookupSS SwicoComponent.conditions set with
      | some s => checkDecimalField s true
      | none => pure ()
      pure (Version.s1 set)

/-! ## Swico parser (`src/billing_infos/swico/parser.rs`) -/

/-- The error enum `SyntaxParserError`. -/
inductive ParserError
  | invalidBeacons (t : Str)
  | indexError
deriving DecidableEq, Repr

/-- The scan of `parser::invalid_beacons` over the invalid marker list. -/
def invalidBeaconsGo (s : Str) : List Str → Except ParserError Unit
  | [] => Except.ok ()
  | t :: rest =>
      if containsSub s t then Except.error (ParserError.invalidBeacons t)
      else invalidBeaconsGo s rest

/-- Source `parser::invalid_beacons`. -/
def invalidBeacons (s : Str) : Except ParserError Unit :=
  invalidBeaconsGo s SwicoComponent.invalids

/-- Source `BTreeMap<u8, &SwicoComponent>::insert`, as a sorted association list
(an equal key overwrites). -/
def insertIdx (k : Nat) (c : SwicoComponent) : List (Nat × SwicoComponent) → List (Nat × SwicoComponent)
  | [] => [(k, c)]
  | (k1, c1) :: t =>
      if k < k1 then (k, c) :: (k1, c1) :: t
      else if k = k1 then (k, c) :: t
      else (k1, c1) :: insertIdx k c t

/-- The delimiter-locating loop of `s1_parser`: for every parsed component
found in the structured region, record its byte offset cast to `u8`
(`x as u8`, that is `x % 256`). -/
def buildIdxCast (stru : Str) : List (Nat × SwicoComponent) :=
  SwicoComponent.forParsing.foldl
    (fun idx c =>
      match findSub stru c.delim with
      | some x => insertIdx (x % 256) c idx
      | none => idx) []

/-- The same loop recording the true byte offsets, with no `u8` cast: the
comparison definition for the offset-wrapping claim. -/
def buildIdxTrue (stru : Str) : List (Nat × SwicoComponent) :=
  SwicoComponent.forParsing.foldl
    (fun idx c =>
      match findSub stru c.delim with
      | some x => insertIdx x c idx
      | none => idx) []

/-- The `windows(2)` loop of `s1_parser`: the value of each tag but the
last is the slice up to the next offset, with every occurrence of the
delimiter of the tag removed; empty values are omitted.  (The
`ok_or(IndexError)` on `first`/`last` of a 2-window never fires and is
dropped.) -/
def windowsGo (stru : Str) : List (Nat × SwicoComponent) → StructuredSet → StructuredSet
  | (i1, c1) :: (i2, c2) :: rest, acc =>
      let val := replaceSub ((stru.drop i1).take (i2 - i1)) c1.delim []
      windowsGo stru ((i2, c2) :: rest) (if val.isEmpty then acc else insertSS c1 val acc)
  | _, acc => acc

/-- The tail of `s1_parser` after the structured region and the offset map
are known: unstructured value, windowed values, final value, literal
prefix tag. -/
def assembleS1 (stru : Str) (uns : Str) (indexes : List (Nat × SwicoComponent)) :
    Except ParserError Version :=
  let set0 := insertSS SwicoComponent.unstructured uns []
  let set1 := windowsGo stru indexes set0
  match indexes.getLast? with
  | none => Except.error ParserError.indexError
  | some (lastu, lastc) =>
      let val := replaceSub (stru.drop lastu) lastc.delim []
      let set2 := insertSS lastc val set1
      Except.ok (Version.s1 (insertSS SwicoComponent.preTag (utf8 "S1") set2))

/-- Source `parser::s1_parser`. -/
def s1Parser (s : Str) : Except ParserError Version :=
  match invalidBeacons s with
  | Except.error e => Except.error e
  | Except.ok _ =>
      match splitOnceSub s (utf8 "//S1") with
      | none => Except.error ParserError.indexError
      | some (msg, stru) => assembleS1 stru (trimB msg) (buildIdxCast stru)

/-- Source `s1_parser` with the true (uncast) offsets: the comparison definition
for the offset-wrapping claim. -/
def s1ParserTrueOffsets (s : Str) : Except ParserError Version :=
  match invalidBeacons s with
  | Except.error e => Except.error e
  | Except.ok _ =>
      match splitOnceSub s (utf8 "//S1") with
      | none => Except.error ParserError.indexError
      | some (msg, stru) => assembleS1 stru (trimB msg) (buildIdxTrue stru)

/-! ## BillingInfos aggregate (`src/billing_infos/mod.rs`, `utils.rs`,
`swico/mod.rs`, `swico/builder.rs`, `swico/erro.rs`) -/

/-- The error enum `SwicoError`. -/
inductive SwicoError
  | tooLong (n : Nat)
  | fromS1Parser (e : ParserError)
  | fromValidator (e : ValidatorError)
deriving DecidableEq, Repr

/-- The error enum `BillingInfoError`. -/
inductive BillingInfoError
  | swicoErr (e : SwicoError)
  | fromParser (s : Str)
deriving DecidableEq, Repr

/-- The struct `Swico` (its `version` field). -/
structure Swico where
  version : Option Version
deriving DecidableEq, Repr

/-- The enum `Emitter`. -/
inductive Emitter
  | swico (s : Swico)
deriving DecidableEq, Repr

/-- The struct `BillingInfos`. -/
structure BillingInfos where
  emitter : Option Emitter
  unstructuredField : Option Str
deriving DecidableEq, Repr

/-- Source `BillingInfos::new` (the `Default` instance). -/
def BillingInfos.new : BillingInfos :=
  { emitter := none, unstructuredField := none }

/-- Source `RawData = HashMap<DataType, Vec<String>>`: a map over the two-variant
key `DataType`, modelled by its two optional entries. -/
structure RawData where
  unstructuredData : Option (List Str)
  structuredData : Option (List Str)
deriving DecidableEq, Repr

/-- Source `impl RawDataKind for Version`. -/
def Version.rawData : Version → Option RawData
  | Version.s1 x =>
      let rdU : Option (List Str) := (lookupSS SwicoComponent.unstructured x).map (fun u => [u])
      let v : List Str :=
        (x.filter (fun p => p.1 ≠ SwicoComponent.unstructured)).map (fun p => p.1.delim ++ p.2)
      let rdS : Option (List Str) := if v.isEmpty then none else some v
      if rdU.isSome || rdS.isSome then
        some { unstructuredData := rdU, structuredData := rdS }
      else none

/-- Source `impl RawDataKind for Swico`. -/
def Swico.rawData (s : Swico) : Option RawData :=
  match s.version with
  | some r => r.rawData
  | none => none

/-- Source `Fold::fold_from`: concatenate the stored strings of one key. -/
def concatStrs (l : List Str) : Str :=
  l.foldl (fun cur nxt => cur ++ nxt) []

/-- Source `BillingInfos::structured`. -/
def BillingInfos.structured (bi : BillingInfos) : Option Str :=
  match bi.emitter with
  | some (Emitter.swico x) => x.rawData.bind (fun r => r.structuredData.map concatStrs)
  | none => none

/-- Source `BillingInfos::unstructured`. -/
def BillingInfos.unstructured (bi : BillingInfos) : Option Str :=
  if bi.unstructuredField.isSome then bi.unstructuredField
  else
    match bi.emitter with
    | some (Emitter.swico x) => x.rawData.bind (fun r => r.unstructuredData.map concatStrs)
    | none => none

/-- Source `BillingInfos::len`: the summed character counts of `unstructured()`
and `structured()`. -/
def BillingInfos.len (bi : BillingInfos) : Nat :=
  (match bi.unstructured with | some f => charCount f | none => 0) +
    (match bi.structured with | some f => charCount f | none => 0)

/-- Source `BillingInfos::add_unstructured`. -/
def BillingInfos.addUnstructured (bi : BillingInfos) (text : Str) :
    Except BillingInfoError BillingInfos :=
  let i := charCount text
  if 140 < i then Except.error (BillingInfoError.swicoErr (SwicoError.tooLong i))
  else
    match bi.structured with
    | some c =>
        let i2 := charCount c + i
        if 140 < i2 then Except.error (BillingInfoError.swicoErr (SwicoError.tooLong i2))
        else Except.ok { emitter := bi.emitter, unstructuredField := some text }
    | none => Except.ok { emitter := bi.emitter, unstructuredField := some text }

/-- Source `impl TryFrom<&str> for Swico`: parse, then validate. -/
def swicoTryFrom (s : Str) : Except SwicoError Swico :=
  match s1Parser s with
  | Except.error e => Except.error (SwicoError.fromS1Parser e)
  | Except.ok ver =>
      match validateS1 ver with
      | Except.error e => Except.error (SwicoError.fromValidator e)
      | Except.ok ver1 => Except.ok { version := some ver1 }

/-- Source `impl FromStr for BillingInfos`. -/
def billingFromStr (s : Str) : Except BillingInfoError BillingInfos :=
  if containsSub s (utf8 "//S1") then
    match swicoTryFrom s with
    | Except.error e => Except.error (BillingInfoError.swicoErr e)
    | Except.ok sw => Except.ok { emitter := some (Emitter.swico sw), unstructuredField := none }
  else Except.error (BillingInfoError.fromParser s)

/-- Source `S1Builder::build` applied to the accumulated set: inject the literal
prefix tag when more than one field is present, reject more than 140
characters of stored values, validate, wrap with no standalone
override. -/
def s1Build (set : StructuredSet) : Except SwicoError BillingInfos :=
  let set1 := if 1 < set.length then insertSS SwicoComponent.preTag (utf8 "S1") set else set
  let maxLen := totLenSS set1
  if 140 < maxLen then Except.error (SwicoError.tooLong maxLen)
  else
    match validateS1 (Version.s1 set1) with
    | Except.error e => Except.error (SwicoError.fromValidator e)
    | Except.ok vers =>
        Except.ok
          { emitter := some (Emitter.swico { version := some vers }), unstructuredField := none }

/-! ## Paragraph folder (`src/billing_infos/utils.rs`) -/

/-- The candidate break characters of `split_unstructured`. -/
def splitChars : List Nat := [59, 47, 92, 44, 46, 32]

/-- Source `utils::split_unstructured`: texts under 70 bytes stay one line;
otherwise the first occurrence of each candidate character is collected,
kept when strictly inside the middle window, and the smallest such index
splits the text after that character; with no candidate in the window the
result is one empty line. -/
def splitUnstructured (s : Str) : List Str :=
  let i := s.length
  if i < 70 then [s]
  else
    let m := i / 2
    let c := (i - m) / 2
    let upperBound := m + c
    let lowerBound := m - c
    let index :=
      ((splitChars.filterMap (fun ch => findSub s [ch])).filter
          (fun x => lowerBound < x ∧ x < upperBound)).min?
    match index with
    | some splitI => [trimB (s.take (splitI + 1)), trimB (s.drop (splitI + 1))]
    | none => [[]]

/-- The builder field set of the round-trip example: the fields
InvoiceRef, DocDate, ClientRef, VatNum, VatDate (start and end
concatenated) and Conditions, inserted through the map insertion the
fluent setters perform. -/
def c4Set : StructuredSet :=
  insertSS SwicoComponent.docDate (utf8 "240630")
    (insertSS SwicoComponent.vatDate (utf8 "240501240630")
      (insertSS SwicoComponent.invoiceRef (utf8 "24073428")
        (insertSS SwicoComponent.conditions (utf8 "3:10;0:30")
          (insertSS SwicoComponent.clientRef (utf8 "145258\\/Dépôt")
            (insertSS SwicoComponent.vatNum (utf8 "112806097") [])))))

/-- The canonical serialized form of the round-trip example. -/
def c4Canon : Str :=
  utf8 "//S1/10/24073428/11/240630/20/145258\\/Dépôt/30/112806097/31/240501240630/40/3:10;0:30"

/-! ## Theorems -/

theorem esrChecksumGo_eq_fold (s : Str) (h : ∀ b ∈ s, isDigitByte b = true) :
    ∀ c, esrChecksumGo c s =
      Except.ok ((s.map (fun b => b - 48)).foldl (fun c d => specEsrTable.getD ((d + c) % 10) 0) c) := by
  induction s with
  | nil => intro c; rfl
  | cons b t ih =>
      intro c
      have hb : isDigitByte b = true := h b (by simp)
      simp only [isDigitByte, Bool.and_eq_true, decide_eq_true_eq] at hb
      have hbd : byteToDigit b = some (b - 48) := by
        simp [byteToDigit, hb.1, hb.2]
      have htbl : esrDigitsTable = specEsrTable := rfl
      simp only [esrChecksumGo, hbd, htbl, List.map_cons, List.foldl_cons]
      exact ih (fun x hx => h x (by simp [hx])) _

theorem replaceSubGo_single_id (c : Nat) (fuel : Nat) (s : Str)
    (hf : s.length ≤ fuel) (h : ∀ b ∈ s, b ≠ c) :
    replaceSubGo [c] [] fuel s = s := by
  induction fuel generalizing s with
  | zero => rfl
  | succ n ih =>
      cases s with
      | nil => rfl
      | cons b t =>
          have hb : b ≠ c := h b (by simp)
          have hp : isPrefixB [c] (b :: t) = false := by
            simp [isPrefixB]
            omega
          simp only [replaceSubGo, hp, Bool.false_eq_true, if_false]
          rw [ih t (by simp at hf; omega) (fun x hx => h x (by simp [hx]))]

theorem esrStrip_id (s : Str) (hdg : ∀ b ∈ s, isDigitByte b = true) (hz : s.head? ≠ some 48) :
    esrStrip s = s := by
  have hns : ∀ b ∈ s, b ≠ 32 := by
    intro b hb
    have := hdg b hb
    simp only [isDigitByte, Bool.and_eq_true, decide_eq_true_eq] at this
    omega
  unfold esrStrip replaceSub
  rw [replaceSubGo_single_id 32 s.length s (le_refl _) hns]
  cases s with
  | nil => rfl
  | cons b t =>
      have hb : b ≠ 48 := by
        intro hcon
        exact hz (by simp [hcon])
      have hb2 : (b == 48) = false := by simp [hb]
      simp [List.dropWhile, hb2]

theorem esrChecksum_digits (s : Str) (h : ∀ b ∈ s, isDigitByte b = true) :
    esrChecksum s = Except.ok ([48 + specEsrCheckDigit (s.map (fun b => b - 48))]) := by
  simp only [esrChecksum, esrChecksumGo_eq_fold s h 0, Except.map, specEsrCheckDigit, specEsrState]

theorem foldl_mul_add (l : List Nat) : ∀ a : Nat,
    l.foldl (fun r d => r * 10 + d) a = a * 10 ^ l.length + natVal l := by
  induction l with
  | nil => intro a; simp [natVal]
  | cons d t ih =>
      intro a
      have h1 : natVal (d :: t) = d * 10 ^ t.length + natVal t := by
        simp only [natVal, List.foldl_cons]
        have hd : (0 : Nat) * 10 + d = d := by omega
        rw [hd, ih d]
        simp [natVal]
      simp only [List.foldl_cons, List.length_cons]
      rw [ih (a * 10 + d), h1]
      ring

theorem natVal_append (xs ys : List Nat) :
    natVal (xs ++ ys) = natVal xs * 10 ^ ys.length + natVal ys := by
  simp only [natVal, List.foldl_append]
  rw [foldl_mul_add ys]
  simp [natVal]

theorem remBase10_eq_mod_aux (m : Nat) (l : List Nat) : ∀ a : Nat,
    l.foldl (fun r d => (r * 10 + d) % m) (a % m) = (l.foldl (fun r d => r * 10 + d) a) % m := by
  induction l with
  | nil => intro a; rfl
  | cons d t ih =>
      intro a
      simp only [List.foldl_cons]
      have h1 : (a % m * 10 + d) % m = (a * 10 + d) % m :=
        ((Nat.mod_modEq a m).mul_right 10).add_right d
      rw [h1]
      exact ih (a * 10 + d)

theorem remBase10_eq_mod (l : List Nat) (m : Nat) : remBase10 l m = natVal l % m := by
  unfold remBase10 natVal
  calc l.foldl (fun r d => (r * 10 + d) % m) 0
      = l.foldl (fun r d => (r * 10 + d) % m) (0 % m) := by rw [Nat.zero_mod]
    _ = (l.foldl (fun r d => r * 10 + d) 0) % m := remBase10_eq_mod_aux m l 0

theorem cpToAsciiUpper_idem (c : Nat) :
    cpToAsciiUpper (cpToAsciiUpper c) = cpToAsciiUpper c := by
  by_cases h : 97 ≤ c ∧ c ≤ 122
  · have h1 : cpToAsciiUpper c = c - 32 := by unfold cpToAsciiUpper; rw [if_pos h]
    rw [h1]
    unfold cpToAsciiUpper
    rw [if_neg (by omega)]
  · have h1 : cpToAsciiUpper c = c := by unfold cpToAsciiUpper; rw [if_neg h]
    rw [h1, h1]

theorem isDigit36_ne_space (c : Nat) (h : isDigit36 c = true) : c ≠ 32 := by
  intro hc
  subst hc
  simp [isDigit36, cpToDigit36] at h

theorem withoutChecksum_new (d : CpStr) :
    isoWithoutChecksum (isoNew d) = digitsBase36Of d := by
  unfold isoWithoutChecksum isoNew
  simp only
  have hmap : (digitsBase36Of d).map cpToAsciiUpper = digitsBase36Of d := by
    have hid : ∀ c ∈ digitsBase36Of d, cpToAsciiUpper c = c := by
      intro c hc
      unfold digitsBase36Of at hc
      rcases List.mem_filter.mp hc with ⟨hmem, _⟩
      rcases List.mem_map.mp hmem with ⟨c0, _, rfl⟩
      exact cpToAsciiUpper_idem c0
    calc (digitsBase36Of d).map cpToAsciiUpper
        = (digitsBase36Of d).map id := List.map_congr_left hid
      _ = digitsBase36Of d := List.map_id _
  rw [hmap]
  apply List.filter_eq_self.mpr
  intro c hc
  unfold digitsBase36Of at hc
  rcases List.mem_filter.mp hc with ⟨_, hdig⟩
  simpa using isDigit36_ne_space c hdig

theorem cpDecDigits_digitChar (k : Nat) (h : k < 10) : cpDecDigits (48 + k) = [k] := by
  interval_cases k <;> decide

theorem decDigitsOf_append (xs ys : CpStr) :
    decDigitsOf (xs ++ ys) = decDigitsOf xs ++ decDigitsOf ys := by
  unfold decDigitsOf
  simp

/-- C1: for every UTF-8 input text (ranged over through the output of the
external `deunicode` fold), `Iso11649::new(text).with_checksum()` returns,
with no panic or error, the string `RF`, two decimal check-digit
characters, then the body (the deunicoded, uppercased, base-36-filtered
input truncated to at most 21 characters), and the base-36 to decimal
mod-97 value of body-first rearrangement body + `RF` + check digits
equals 1 (ISO 7064 MOD 97-10). -/
theorem c1_iso_with_checksum_mod97 (d : CpStr) :
    let body := (digitsBase36Of d).take 21
    let cd := 98 - remBase10 (decDigitsOf (body ++ [82, 70, 48, 48])) 97
    isoWithChecksum (isoNew d) = [82, 70, 48 + cd / 10, 48 + cd % 10] ++ body ∧
    2 ≤ cd ∧ cd ≤ 98 ∧
    remBase10 (decDigitsOf (body ++ [82, 70, 48 + cd / 10, 48 + cd % 10])) 97 = 1 := by
  intro body cd
  have hbody : (isoWithoutChecksum (isoNew d)).take 21 = body := by
    rw [withoutChecksum_new]
  have hrem : remBase10 (decDigitsOf (body ++ [82, 70, 48, 48])) 97 ≤ 96 := by
    rw [remBase10_eq_mod]
    omega
  have hcd2 : 2 ≤ cd := by unfold_let cd; omega
  have hcd98 : cd ≤ 98 := by unfold_let cd; omega
  have heq : isoWithChecksum (isoNew d) = [82, 70, 48 + cd / 10, 48 + cd % 10] ++ body := by
    simp only [isoWithChecksum]
    rw [hbody]
  refine ⟨heq, hcd2, hcd98, ?_⟩
  have hd10 : cd / 10 < 10 := by omega
  have hd1 : cd % 10 < 10 := by omega
  have hassoc : body ++ [82, 70, 48 + cd / 10, 48 + cd % 10] =
      (body ++ [82, 70]) ++ [48 + cd / 10, 48 + cd % 10] := by simp
  have hassoc0 : body ++ [82, 70, 48, 48] = (body ++ [82, 70]) ++ [48, 48] := by simp
  have htail : decDigitsOf [48 + cd / 10, 48 + cd % 10] = [cd / 10, cd % 10] := by
    unfold decDigitsOf
    simp [cpDecDigits_digitChar _ hd10, cpDecDigits_digitChar _ hd1]
  have htail0 : decDigitsOf [48, 48] = [0, 0] := rfl
  set N := natVal (decDigitsOf (body ++ [82, 70])) with hN
  have hV : remBase10 (decDigitsOf (body ++ [82, 70, 48, 48])) 97 = (N * 100) % 97 := by
    rw [hassoc0, decDigitsOf_append, htail0, remBase10_eq_mod, natVal_append]
    have h00 : natVal [0, 0] = 0 := rfl
    have hlen : (10 : Nat) ^ ([0, 0] : List Nat).length = 100 := by norm_num
    rw [h00, hlen, Nat.add_zero, ← hN]
  have hgoal : natVal (decDigitsOf (body ++ [82, 70, 48 + cd / 10, 48 + cd % 10])) =
      N * 100 + cd := by
    rw [hassoc, decDigitsOf_append, htail, natVal_append]
    have hnv2 : natVal [cd / 10, cd % 10] = cd := by
      simp only [natVal, List.foldl_cons, List.foldl_nil]
      omega
    rw [hnv2]
    simp only [List.length_cons, List.length_nil]
    ring
  rw [remBase10_eq_mod, hgoal]
  have hcdval : cd = 98 - (N * 100) % 97 := by
    unfold_let cd
    rw [hV]
  have hr : (N * 100) % 97 ≤ 96 := by omega
  rw [hcdval]
  omega

/-- C2: the ESR checksum function implements the reference algorithm of
the specification (running state through the substitution table
`[0,9,4,6,8,2,7,1,3,5]`, check digit `(10 - c) mod 10`) on every decimal
digit string, and `checksum("24075237")` equals `"1"`. -/
theorem c2_esr_checksum_matches_spec :
    (∀ s : Str, (∀ b ∈ s, isDigitByte b = true) →
      esrChecksum s = Except.ok ([48 + specEsrCheckDigit (s.map (fun b => b - 48))])) ∧
    esrChecksum (utf8 "24075237") = Except.ok (utf8 "1") := by
  constructor
  · intro s h
    simp only [esrChecksum, esrChecksumGo_eq_fold s h 0, Except.map, specEsrCheckDigit, specEsrState]
  · decide

/-- Witness for C2 at the concrete digit string `11111`. -/
theorem c2_witness :
    esrChecksum (utf8 "11111") =
      Except.ok ([48 + specEsrCheckDigit ((utf8 "11111").map (fun b => b - 48))]) :=
  c2_esr_checksum_matches_spec.1 (utf8 "11111") (by decide)

/-- Counterexample to C3 as stated: the claim admits digit strings of
length 4 to 26, but `try_without_checksum` rejects length 4 with
`InvalidLength` (the source accepts 5 to 25 after stripping), and a
string of 9 digits with five leading zeros is likewise rejected because
leading zeros are stripped first. -/
theorem c3_counterexample :
    tryWithoutChecksum (utf8 "1234") = Except.error EsrError.invalidLength ∧
    tryWithoutChecksum (utf8 "000001234") = Except.error EsrError.invalidLength := by
  decide

/-- C3 (amended): for every digit string of length 5 to 25 with no leading
zero, `try_without_checksum` succeeds and appends exactly the digit
`checksum(d)`, and `try_with_checksum` accepts the result. -/
theorem c3_amended (s : Str) (hdg : ∀ b ∈ s, isDigitByte b = true)
    (h5 : 5 ≤ s.length) (h25 : s.length ≤ 25) (hz : s.head? ≠ some 48) :
    let k := 48 + specEsrCheckDigit (s.map (fun b => b - 48))
    isDigitByte k = true ∧ esrChecksum s = Except.ok ([k]) ∧
      tryWithoutChecksum s = Except.ok { number := s ++ [k] } ∧
      tryWithChecksum (s ++ [k]) = Except.ok { number := s ++ [k] } := by
  intro k
  have hkd : specEsrCheckDigit (s.map (fun b => b - 48)) < 10 := by
    unfold specEsrCheckDigit
    omega
  have hkdig : isDigitByte k = true := by
    simp only [isDigitByte, Bool.and_eq_true, decide_eq_true_eq, k]
    omega
  have hchk : esrChecksum s = Except.ok ([k]) := esrChecksum_digits s hdg
  have hdgk : ∀ b ∈ s ++ [k], isDigitByte b = true := by
    intro b hb
    rcases List.mem_append.mp hb with h1 | h2
    · exact hdg b h1
    · simp at h2
      simpa [h2] using hkdig
  have hlen : (s ++ [k]).length - 1 = s.length := by simp
  have hvalid : isChecksumValid (s ++ [k]) = Except.ok () := by
    simp only [isChecksumValid, hlen, List.take_left, List.drop_left, hchk]
    simp
  refine ⟨hkdig, hchk, ?_, ?_⟩
  · unfold tryWithoutChecksum
    rw [esrStrip_id s hdg hz]
    have hcond : ¬ (25 < s.length ∨ s.length < 5) := by omega
    simp only [hcond, if_false, hchk, hvalid]
  · unfold tryWithChecksum
    have hz2 : (s ++ [k]).head? ≠ some 48 := by
      cases s with
      | nil => simp at h5
      | cons b t => simpa using hz
    rw [esrStrip_id (s ++ [k]) hdgk hz2]
    have hlen2 : (s ++ [k]).length = s.length + 1 := by simp
    have hcond : ¬ (27 < (s ++ [k]).length ∨ (s ++ [k]).length < 5) := by
      rw [hlen2]; omega
    simp only [hcond, if_false, hvalid]

/-- Witness for the amended C3 at the concrete digit string `24075237`. -/
theorem c3_amended_witness :
    let k := 48 + specEsrCheckDigit ((utf8 "24075237").map (fun b => b - 48))
    isDigitByte k = true ∧ esrChecksum (utf8 "24075237") = Except.ok ([k]) ∧
      tryWithoutChecksum (utf8 "24075237") = Except.ok { number := utf8 "24075237" ++ [k] } ∧
      tryWithChecksum (utf8 "24075237" ++ [k]) = Except.ok { number := utf8 "24075237" ++ [k] } :=
  c3_amended (utf8 "24075237") (by decide) (by decide) (by decide) (by decide)

/-- C4: building the Swico S1 set with the example fields, serializing it
through `structured()`, parsing that string back through the S1 parser and
calling `structured()` on the parse result reproduces exactly the
canonical string the builder generated. -/
theorem c4_roundtrip :
    Except.map BillingInfos.structured (s1Build c4Set) = Except.ok (some c4Canon) ∧
    Except.map BillingInfos.structured (billingFromStr c4Canon) = Except.ok (some c4Canon) := by
  set_option maxRecDepth 1000000 in decide

/-- Counterexample to C5 as stated: parsing a string of 200 characters of
free text followed by `//S1/10/24073428` through `from_str` succeeds (the
parser applies no length check), and the resulting value has
`unstructured()` plus `structured()` character count 216, above 140. -/
theorem c5_counterexample :
    Except.map BillingInfos.len
        (billingFromStr (List.replicate 200 97 ++ utf8 "//S1/10/24073428")) =
      Except.ok 216 ∧ 140 < 216 := by
  constructor
  · set_option maxRecDepth 1000000 in decide
  · omega

theorem structured_ignores_field (e : Option Emitter) (u v : Option Str) :
    BillingInfos.structured { emitter := e, unstructuredField := u } =
      BillingInfos.structured { emitter := e, unstructuredField := v } := rfl

/-- C5 (amended): the 140-character invariant
`unstructured().len() + structured().len() ≤ 140` holds for the value
produced by `new()` and for every value `add_unstructured` returns
successfully; it is not enforced by `from_str` (see the counterexample)
nor by the builder, whose length check does not count delimiters. -/
theorem c5_amended :
    BillingInfos.len BillingInfos.new ≤ 140 ∧
    ∀ (bi : BillingInfos) (t : Str) (bi2 : BillingInfos),
      BillingInfos.addUnstructured bi t = Except.ok bi2 → BillingInfos.len bi2 ≤ 140 := by
  constructor
  · decide
  · intro bi t bi2 h
    unfold BillingInfos.addUnstructured at h
    by_cases h1 : 140 < charCount t
    · simp only [h1, if_true] at h
      cases h
    · simp only [h1, if_false] at h
      have hstru : BillingInfos.structured { emitter := bi.emitter, unstructuredField := some t } =
          bi.structured := by
        have : bi.structured =
            BillingInfos.structured
              { emitter := bi.emitter, unstructuredField := bi.unstructuredField } := rfl
        rw [this]
        exact structured_ignores_field bi.emitter (some t) bi.unstructuredField
      cases hs : bi.structured with
      | none =>
          rw [hs] at h
          cases h
          unfold BillingInfos.len
          have hu : BillingInfos.unstructured
              { emitter := bi.emitter, unstructuredField := some t } = some t := rfl
          rw [hu, hstru, hs]
          show charCount t + 0 ≤ 140
          omega
      | some c =>
          rw [hs] at h
          by_cases h2 : 140 < charCount c + charCount t
          · simp only [h2, if_true] at h
            cases h
          · simp only [h2, if_false] at h
            cases h
            unfold BillingInfos.len
            have hu : BillingInfos.unstructured
                { emitter := bi.emitter, unstructuredField := some t } = some t := rfl
            rw [hu, hstru, hs]
            show charCount t + charCount c ≤ 140
            omega

/-- Witness for the amended C5: `add_unstructured` on the empty aggregate
with a short message keeps the invariant. -/
theorem c5_witness :
    BillingInfos.len { emitter := none, unstructuredField := some (utf8 "hello") } ≤ 140 :=
  c5_amended.2 BillingInfos.new (utf8 "hello")
    { emitter := none, unstructuredField := some (utf8 "hello") } (by decide)

/-- Counterexample to C6 as stated: a builder set holding only an
unstructured value of 141 characters is rejected with `TooLong(141)`
although the combined length of its non-unstructured field values is 0;
the length check of `build()` counts every stored value, the unstructured
one included. -/
theorem c6_counterexample :
    s1Build [(SwicoComponent.unstructured, List.replicate 141 97)] =
      Except.error (SwicoError.tooLong 141) ∧
    totLenSS (([(SwicoComponent.unstructured, List.replicate 141 97)] : StructuredSet).filter
        (fun p => p.1 ≠ SwicoComponent.unstructured)) = 0 := by
  set_option maxRecDepth 10000 in decide

/-- C6 (amended): `build()` injects the literal prefix field exactly when
more than one field is present, returns `TooLong` exactly when the
combined character length of all stored field values, the unstructured
value and the injected prefix value included, exceeds 140, and otherwise
returns the syntax-validator result wrapped as a `BillingInfos` with no
standalone override. -/
theorem c6_amended (set : StructuredSet) :
    let set1 := if 1 < set.length then insertSS SwicoComponent.preTag (utf8 "S1") set else set
    (140 < totLenSS set1 → s1Build set = Except.error (SwicoError.tooLong (totLenSS set1))) ∧
    ((∃ n, s1Build set = Except.error (SwicoError.tooLong n)) → 140 < totLenSS set1) ∧
    (totLenSS set1 ≤ 140 →
      s1Build set =
        (match validateS1 (Version.s1 set1) with
         | Except.error e => Except.error (SwicoError.fromValidator e)
         | Except.ok vers =>
             Except.ok { emitter := some (Emitter.swico { version := some vers }),
                         unstructuredField := none })) ∧
    (∀ bi, s1Build set = Except.ok bi → bi.unstructuredField = none) := by
  intro set1
  have hdef : s1Build set =
      (if 140 < totLenSS set1 then Except.error (SwicoError.tooLong (totLenSS set1))
       else
         match validateS1 (Version.s1 set1) with
         | Except.error e => Except.error (SwicoError.fromValidator e)
         | Except.ok vers =>
             Except.ok { emitter := some (Emitter.swico { version := some vers }),
                         unstructuredField := none }) := rfl
  refine ⟨?_, ?_, ?_, ?_⟩
  · intro h
    rw [hdef, if_pos h]
  · rintro ⟨n, hn⟩
    by_contra hle
    rw [hdef, if_neg hle] at hn
    cases hv : validateS1 (Version.s1 set1) with
    | error e => rw [hv] at hn; cases hn
    | ok vers => rw [hv] at hn; cases hn
  · intro h
    rw [hdef, if_neg (by omega)]
  · intro bi hbi
    rw [hdef] at hbi
    by_cases h : 140 < totLenSS set1
    · rw [if_pos h] at hbi
      cases hbi
    · rw [if_neg h] at hbi
      cases hv : validateS1 (Version.s1 set1) with
      | error e => rw [hv] at hbi; cases hbi
      | ok vers =>
          rw [hv] at hbi
          cases hbi
          rfl

/-- Witness for the amended C6 at a one-field set within the length
bound. -/
theorem c6_witness :
    s1Build [(SwicoComponent.invoiceRef, utf8 "24073428")] =
      (match validateS1 (Version.s1 [(SwicoComponent.invoiceRef, utf8 "24073428")]) with
       | Except.error e => Except.error (SwicoError.fromValidator e)
       | Except.ok vers =>
           Except.ok { emitter := some (Emitter.swico { version := some vers }),
                       unstructuredField := none }) :=
  (c6_amended [(SwicoComponent.invoiceRef, utf8 "24073428")]).2.2.1 (by decide)

theorem invalidBeaconsGo_ok_iff (s : Str) (l : List Str) :
    invalidBeaconsGo s l = Except.ok () ↔ ∀ t ∈ l, containsSub s t = false := by
  induction l with
  | nil => simp [invalidBeaconsGo]
  | cons t rest ih =>
      by_cases hc : containsSub s t
      · simp [invalidBeaconsGo, hc]
      · simp only [invalidBeaconsGo, hc, Bool.false_eq_true, if_false]
        rw [ih]
        constructor
        · intro h x hx
          rcases List.mem_cons.mp hx with rfl | hx2
          · simpa using hc
          · exact h x hx2
        · intro h x hx
          exact h x (List.mem_cons_of_mem _ hx)

theorem invalidBeaconsGo_error_iff (s : Str) (l : List Str) :
    (∃ t, invalidBeaconsGo s l = Except.error (ParserError.invalidBeacons t)) ↔
      ∃ t ∈ l, containsSub s t = true := by
  induction l with
  | nil => simp [invalidBeaconsGo]
  | cons t rest ih =>
      by_cases hc : containsSub s t
      · simp only [invalidBeaconsGo, hc, if_true]
        constructor
        · intro _
          exact ⟨t, List.mem_cons_self t rest, hc⟩
        · intro _
          exact ⟨t, rfl⟩
      · simp only [invalidBeaconsGo, hc, Bool.false_eq_true, if_false]
        rw [ih]
        constructor
        · rintro ⟨x, hx, hcx⟩
          exact ⟨x, List.mem_cons_of_mem _ hx, hcx⟩
        · rintro ⟨x, hx, hcx⟩
          rcases List.mem_cons.mp hx with rfl | hx2
          · exact absurd hcx (by simpa using hc)
          · exact ⟨x, hx2, hcx⟩

theorem mem_invalids_iff (t : Str) :
    t ∈ SwicoComponent.invalids ↔
      ∃ n, n < 100 ∧ (∀ c ∈ SwicoComponent.forParsing, c.getId ≠ n) ∧
        t = 47 :: twoDigitsStr n ++ [47] := by
  unfold SwicoComponent.invalids
  constructor
  · intro h
    rcases List.mem_map.mp h with ⟨n, hn, rfl⟩
    rcases List.mem_filter.mp hn with ⟨hr, hp⟩
    refine ⟨n, List.mem_range.mp hr, ?_, rfl⟩
    intro c hc hid
    simp only [decide_eq_true_eq, List.any_eq_true, not_exists, not_and] at hp
    exact hp c hc (by simp [hid])
  · rintro ⟨n, hn, hnc, rfl⟩
    apply List.mem_map.mpr
    refine ⟨n, ?_, rfl⟩
    apply List.mem_filter.mpr
    refine ⟨List.mem_range.mpr hn, ?_⟩
    simp only [decide_eq_true_eq, List.any_eq_true, not_exists, not_and]
    intro c hc hbeq
    exact hnc c hc (by simpa using hbeq)

/-- Counterexample to C7 as stated: the claim counts 0 and 1 (the ids of
the unstructured and prefix tags) among the legal `/NN/` markers, but the
scan builds its invalid list from the parsed components only, so the
marker `/01/` is rejected with `InvalidBeacons` although id 1 belongs to
the prefix tag. -/
theorem c7_counterexample :
    invalidBeacons (utf8 "/01/") = Except.error (ParserError.invalidBeacons (utf8 "/01/")) ∧
    SwicoComponent.preTag.getId = 1 := by
  decide

/-- C7 (amended): the beacon scan accepts a string exactly when it
contains no substring `/NN/` whose two-digit id is outside the eight
parsed ids 10,11,20,30,31,32,33,40, and rejects with `InvalidBeacons`
exactly when such a substring occurs. -/
theorem c7_amended (s : Str) :
    (invalidBeacons s = Except.ok () ↔
      ∀ n, n < 100 → (∀ c ∈ SwicoComponent.forParsing, c.getId ≠ n) →
        containsSub s (47 :: twoDigitsStr n ++ [47]) = false) ∧
    ((∃ t, invalidBeacons s = Except.error (ParserError.invalidBeacons t)) ↔
      ∃ n, n < 100 ∧ (∀ c ∈ SwicoComponent.forParsing, c.getId ≠ n) ∧
        containsSub s (47 :: twoDigitsStr n ++ [47]) = true) := by
  constructor
  · rw [invalidBeacons, invalidBeaconsGo_ok_iff]
    constructor
    · intro h n hn hnc
      exact h _ ((mem_invalids_iff _).mpr ⟨n, hn, hnc, rfl⟩)
    · intro h t ht
      rcases (mem_invalids_iff t).mp ht with ⟨n, hn, hnc, rfl⟩
      exact h n hn hnc
  · rw [invalidBeacons, invalidBeaconsGo_error_iff]
    constructor
    · rintro ⟨t, ht, hct⟩
      rcases (mem_invalids_iff t).mp ht with ⟨n, hn, hnc, rfl⟩
      exact ⟨n, hn, hnc, hct⟩
    · rintro ⟨n, hn, hnc, hct⟩
      exact ⟨_, (mem_invalids_iff _).mpr ⟨n, hn, hnc, rfl⟩, hct⟩

/-- Witness for the amended C7: a string whose only marker carries a
parsed id passes the scan. -/
theorem c7_witness :
    invalidBeacons (utf8 "/10/abc") = Except.ok () :=
  (c7_amended (utf8 "/10/abc")).1.mpr (by decide)

/-- Counterexample to C8 as stated: the claim considers every occurrence
of a candidate break character inside the window, but the code collects
only the first occurrence of each candidate in the whole string.  In this
80-byte string the semicolon occurs at index 10 (outside the window
(20,60)) and at index 40 (inside it); the claim demands a two-line split
after index 40, yet the folder returns the single empty line. -/
theorem c8_counterexample :
    let s := List.replicate 10 97 ++ [59] ++ List.replicate 29 97 ++ [59] ++ List.replicate 39 97
    s.length = 80 ∧ s[40]? = some 59 ∧ 59 ∈ splitChars ∧
      s.length / 2 - (s.length - s.length / 2) / 2 = 20 ∧
      s.length / 2 + (s.length - s.length / 2) / 2 = 60 ∧
      splitUnstructured s = [[]] := by
  decide

/-- C8 (amended): for every string of byte length at least 70, the folder
collects the first occurrence of each of the candidate characters
`;` `/` `\` `,` `.` space, keeps those lying strictly inside the window
`(m - c, m + c)` with `m = len/2` and `c = (len - m)/2`, splits
immediately after the smallest such index and trims both halves; when no
first occurrence lies in the window it returns one empty line. -/
theorem c8_amended (s : Str) (h70 : 70 ≤ s.length) :
    let m := s.length / 2
    let c := (s.length - m) / 2
    let candidates :=
      (splitChars.filterMap (fun ch => findSub s [ch])).filter (fun x => m - c < x ∧ x < m + c)
    (∀ si, candidates.min? = some si →
      splitUnstructured s = [trimB (s.take (si + 1)), trimB (s.drop (si + 1))] ∧
        (∃ ch ∈ splitChars, findSub s [ch] = some si) ∧ m - c < si ∧ si < m + c ∧
        ∀ x ∈ candidates, si ≤ x) ∧
    (candidates.min? = none →
      splitUnstructured s = [[]] ∧
        ∀ ch ∈ splitChars, ∀ x, findSub s [ch] = some x → ¬ (m - c < x ∧ x < m + c)) := by
  intro m c candidates
  have hdef : splitUnstructured s =
      (match candidates.min? with
       | some splitI => [trimB (s.take (splitI + 1)), trimB (s.drop (splitI + 1))]
       | none => [[]]) := by
    unfold splitUnstructured
    rw [if_neg (by omega)]
  have hsome : ∀ si, candidates.min? = some si → si ∈ candidates ∧ ∀ b ∈ candidates, si ≤ b := by
    intro si hsi
    exact (@List.min?_eq_some_iff Nat si _ _ _ (fun a => le_refl a) (fun a b => min_choice a b)
      (fun a b c => le_min_iff) candidates).mp hsi
  constructor
  · intro si hsi
    rcases hsome si hsi with ⟨hmem, hle⟩
    rcases List.mem_filter.mp hmem with ⟨hmem2, hwin⟩
    rcases List.mem_filterMap.mp hmem2 with ⟨ch, hch, hfind⟩
    simp only [decide_eq_true_eq] at hwin
    refine ⟨?_, ⟨ch, hch, hfind⟩, hwin.1, hwin.2, hle⟩
    rw [hdef, hsi]
  · intro hnone
    have hnil : candidates = [] := List.min?_eq_none_iff.mp hnone
    refine ⟨by rw [hdef, hnone], ?_⟩
    intro ch hch x hfind hwin
    have hx : x ∈ candidates := by
      apply List.mem_filter.mpr
      refine ⟨List.mem_filterMap.mpr ⟨ch, hch, hfind⟩, by simpa using hwin⟩
    rw [hnil] at hx
    cases hx

/-- Witness for the amended C8: an 80-byte string with one semicolon at
index 35 splits after it. -/
theorem c8_witness :
    let s := List.replicate 35 97 ++ [59] ++ List.replicate 44 97
    splitUnstructured s = [trimB (s.take 36), trimB (s.drop 36)] :=
  ((c8_amended (List.replicate 35 97 ++ [59] ++ List.replicate 44 97) (by decide)).1 35
    (by decide)).1

/-- C9: strict validating constructor of the ISO 11649 type, modelled
from the spec (the definition is missing from `src/`; only its callers
exist).  Punctuation is stripped; `InvalidLength` exactly outside
[5,25]; a format failure exactly when the stripped input does not start
with `RF`; `InvalidCharacters` exactly when some character is not ASCII
alphanumeric; `InvalidChecksum` exactly when the rearranged base-36 to
decimal value is not 1 modulo 97; success otherwise, in that priority
order. -/
theorem c9_iso_strict_constructor (input : CpStr) :
    let s := isoStripPunct input
    (isoTryNew input = Except.error Iso11649Error.invalidLength ↔
      s.length < 5 ∨ 25 < s.length) ∧
    (isoTryNew input = Except.error Iso11649Error.invalidFormat ↔
      (5 ≤ s.length ∧ s.length ≤ 25) ∧ s.take 2 ≠ [82, 70]) ∧
    (isoTryNew input = Except.error Iso11649Error.invalidCharacters ↔
      (5 ≤ s.length ∧ s.length ≤ 25) ∧ s.take 2 = [82, 70] ∧
        ¬ (∀ c ∈ s, isAsciiAlnumCp c = true)) ∧
    (isoTryNew input = Except.error Iso11649Error.invalidChecksum ↔
      (5 ≤ s.length ∧ s.length ≤ 25) ∧ s.take 2 = [82, 70] ∧
        (∀ c ∈ s, isAsciiAlnumCp c = true) ∧ isoMod97 (s.drop 4 ++ s.take 4) ≠ 1) ∧
    (isoTryNew input = Except.ok { original := s } ↔
      (5 ≤ s.length ∧ s.length ≤ 25) ∧ s.take 2 = [82, 70] ∧
        (∀ c ∈ s, isAsciiAlnumCp c = true) ∧ isoMod97 (s.drop 4 ++ s.take 4) = 1) := by
  intro s
  have hs : isoStripPunct input = s := rfl
  have hall : (s.all isAsciiAlnumCp = true) ↔ (∀ c ∈ s, isAsciiAlnumCp c = true) := by
    simp [List.all_eq_true]
  simp only [isoTryNew, hs]
  split_ifs with h1 h2 h3 h4 <;>
    simp_all <;> omega

/-- Witness for C9 at the valid reference `RF25A`. -/
theorem c9_witness :
    isoTryNew (cps "RF25A") = Except.ok { original := cps "RF25A" } :=
  ((c9_iso_strict_constructor (cps "RF25A")).2.2.2.2).mpr (by decide)

theorem findSub_le (h n : Str) (x : Nat) (hf : findSub h n = some x) : x ≤ h.length := by
  induction h generalizing x with
  | nil =>
      unfold findSub at hf
      split at hf
      · cases hf; simp
      · cases hf
  | cons b t ih =>
      unfold findSub at hf
      split at hf
      · cases hf; simp
      · rcases Option.map_eq_some'.mp hf with ⟨y, hy, rfl⟩
        have := ih y hy
        simp only [List.length_cons]
        omega

theorem buildIdx_eq (stru : Str) (h : stru.length ≤ 255) :
    buildIdxCast stru = buildIdxTrue stru := by
  unfold buildIdxCast buildIdxTrue
  have hgen : ∀ (l : List SwicoComponent) (acc : List (Nat × SwicoComponent)),
      l.foldl (fun idx c =>
        match findSub stru c.delim with
        | some x => insertIdx (x % 256) c idx
        | none => idx) acc =
      l.foldl (fun idx c =>
        match findSub stru c.delim with
        | some x => insertIdx x c idx
        | none => idx) acc := by
    intro l
    induction l with
    | nil => intro acc; rfl
    | cons cc t ih =>
        intro acc
        simp only [List.foldl_cons]
        cases hf : findSub stru cc.delim with
        | none => exact ih acc
        | some x =>
            have hx : x ≤ 255 := le_trans (findSub_le _ _ _ hf) h
            have hmod : x % 256 = x := Nat.mod_eq_of_lt (by omega)
            dsimp only
            rw [hmod]
            exact ih _
  exact hgen _ []

/-- C10: the S1 parser records each located delimiter offset cast to
8 bits (`x as u8`, modelled `x % 256`) with no length precondition.  For
every input whose structured region (the text from `//S1` onward) is at
most 255 bytes the cast is the identity and the parse agrees with the
true-offset parse; on a concrete input whose structured region is 265
bytes the offsets wrap and the parse succeeds while misattributing 256
filler bytes into the InvoiceRef value, where the true-offset parse
yields the value `5`. -/
theorem c10_parser_offsets :
    (∀ (s u st : Str), splitOnceSub s (utf8 "//S1") = some (u, st) → st.length ≤ 255 →
      s1Parser s = s1ParserTrueOffsets s) ∧
    (s1Parser (utf8 "//S1" ++ List.replicate 260 120 ++ utf8 "/10/5") =
        Except.ok (Version.s1
          [(SwicoComponent.unstructured, []), (SwicoComponent.preTag, utf8 "S1"),
           (SwicoComponent.invoiceRef, List.replicate 256 120 ++ utf8 "5")]) ∧
      s1ParserTrueOffsets (utf8 "//S1" ++ List.replicate 260 120 ++ utf8 "/10/5") =
        Except.ok (Version.s1
          [(SwicoComponent.unstructured, []), (SwicoComponent.preTag, utf8 "S1"),
           (SwicoComponent.invoiceRef, utf8 "5")])) := by
  constructor
  · intro s u st hsplit hlen
    unfold s1Parser s1ParserTrueOffsets
    cases hb : invalidBeacons s with
    | error e => rfl
    | ok _ =>
        rw [hsplit]
        dsimp only
        rw [buildIdx_eq st hlen]
  · constructor
    · set_option maxRecDepth 1000000 in decide
    · set_option maxRecDepth 1000000 in decide

/-- Witness for the bounded-region part of C10 at a 10-byte structured
region. -/
theorem c10_witness :
    s1Parser (utf8 "msg//S1/10/77") = s1ParserTrueOffsets (utf8 "msg//S1/10/77") :=
  c10_parser_offsets.1 (utf8 "msg//S1/10/77") (utf8 "msg") (utf8 "/10/77") (by decide) (by decide)
